import Mathlib

/-!
Verification of the `icns` icon resolver/renderer against its
natural-language specification.

The TypeScript sources are shallowly embedded: pure functions become Lean
functions on `List Char` / `String` / `ℚ`, stateful code becomes explicit
state passing, the batch executor becomes a step relation, and fallible
code returns `Except`/`Option`.  JavaScript numbers are modelled as `ℚ`
(all numeric literals used by the code are exact in `ℚ`), and JavaScript
builtins (`trim`, `toLowerCase` on ASCII) are modelled directly.
-/

namespace Icns

/-- Whitespace predicate used by the model of JavaScript `String.prototype.trim`. -/
def isJsWhitespace (c : Char) : Bool :=
  c = ' ' ∨ c = '\t' ∨ c = '\n' ∨ c = '\r'

/-- Model of JavaScript `trim` on the character list of a string. -/
def trimList (l : List Char) : List Char :=
  ((l.dropWhile isJsWhitespace).reverse.dropWhile isJsWhitespace).reverse

/-- Model of JavaScript `s.trim()`. -/
def jsTrim (s : String) : String :=
  String.mk (trimList s.toList)

/-- Model of JavaScript `s.toLowerCase()` (ASCII case folding). -/
def jsToLower (s : String) : String :=
  String.mk (s.toList.map Char.toLower)

/-- Characters kept by `normalize` in `fuzzy.ts`: lowercase ASCII letters and digits. -/
def isLowerAlnum (c : Char) : Bool :=
  ('a' ≤ c ∧ c ≤ 'z') ∨ ('0' ≤ c ∧ c ≤ '9')

/-- `fuzzy.ts` `normalize`: lowercase, then strip everything that is not `[a-z0-9]`. -/
def normalize (l : List Char) : List Char :=
  (l.map Char.toLower).filter isLowerAlnum

/-- Characters of a string before the first `:` (used to model `split(":", 2)` and `indexOf(":")`). -/
def upToColon : List Char → List Char
  | [] => []
  | c :: t => if c = ':' then [] else c :: upToColon t

/-- Characters of a string after the first `:`. -/
def afterColon : List Char → List Char
  | [] => []
  | c :: t => if c = ':' then t else afterColon t

/-- The name portion of an icon id in `scoreCandidate`:
`iconId.includes(":") ? iconId.split(":", 2)[1] : iconId`
(`split(":", 2)[1]` is the text between the first and second colon). -/
def namePart (l : List Char) : List Char :=
  if l.contains ':' then upToColon (afterColon l) else l

/-- `needle` is a leading segment of `hay` (JavaScript `hay.startsWith(needle)`). -/
def leadsWith : List Char → List Char → Bool
  | [], _ => true
  | _ :: _, [] => false
  | a :: as, b :: bs => a = b && leadsWith as bs

/-- `hay` contains `needle` as a contiguous segment (JavaScript `hay.includes(needle)`). -/
def hasSeg : List Char → List Char → Bool
  | [], needle => leadsWith needle []
  | h :: t, needle => leadsWith needle (h :: t) || hasSeg t needle

/-- `fuzzy.ts` `bigrams`: the set of length-2 slices; a single-character string
degrades to the one-element set holding that character; shorter to `∅`. -/
def bigramSlices : List Char → List (List Char)
  | c₁ :: c₂ :: rest => [c₁, c₂] :: bigramSlices (c₂ :: rest)
  | _ => []

/-- `fuzzy.ts` `bigrams` as a finite set. -/
def bigrams (l : List Char) : Finset (List Char) :=
  if l.length < 2 then
    match l with
    | [c] => {[c]}
    | _ => ∅
  else (bigramSlices l).toFinset

/-- `fuzzy.ts` `jaccard`: intersection size over union size, with the empty union
mapped to `0`. -/
def jaccard (left right : Finset (List Char)) : ℚ :=
  if (left ∪ right).card = 0 then 0
  else ((left ∩ right).card : ℚ) / ((left ∪ right).card : ℚ)

/-- `fuzzy.ts` `scoreCandidate` on character lists (`normalizedQuery`,
`normalizedId` and `normalizedName` of the source are inlined). -/
def scoreList (query iconId : List Char) : ℚ :=
  if (normalize query).length = 0 then 0
  else if normalize iconId = normalize query ∨ normalize (namePart iconId) = normalize query then 1
  else if leadsWith (normalize query) (normalize iconId) ∨
      leadsWith (normalize query) (normalize (namePart iconId)) then 92/100
  else if hasSeg (normalize iconId) (normalize query) ∨
      hasSeg (normalize (namePart iconId)) (normalize query) then 82/100
  else jaccard (bigrams (normalize query)) (bigrams (normalize (namePart iconId)))

/-- `fuzzy.ts` `scoreCandidate` on strings. -/
def scoreCandidate (query iconId : String) : ℚ :=
  scoreList query.toList iconId.toList

/-- The branch condition under which `scoreCandidate` hits one of the discrete
tiers (exact `1.0`, starts-with `0.92`, contains `0.82`). -/
def hitsDiscreteTier (query iconId : String) : Bool :=
  (normalize query.toList).length ≠ 0 &&
  (normalize iconId.toList = normalize query.toList ||
   normalize (namePart iconId.toList) = normalize query.toList ||
   leadsWith (normalize query.toList) (normalize iconId.toList) ||
   leadsWith (normalize query.toList) (normalize (namePart iconId.toList)) ||
   hasSeg (normalize iconId.toList) (normalize query.toList) ||
   hasSeg (normalize (namePart iconId.toList)) (normalize query.toList))

/-- The branch condition under which `scoreCandidate` falls through every
discrete tier to the bigram-Jaccard tail. -/
def fallsToTail (query iconId : String) : Bool :=
  (normalize query.toList).length ≠ 0 &&
  !(normalize iconId.toList = normalize query.toList ||
    normalize (namePart iconId.toList) = normalize query.toList) &&
  !(leadsWith (normalize query.toList) (normalize iconId.toList) ||
    leadsWith (normalize query.toList) (normalize (namePart iconId.toList))) &&
  !(hasSeg (normalize iconId.toList) (normalize query.toList) ||
    hasSeg (normalize (namePart iconId.toList)) (normalize query.toList))

/-! ### `output.ts` result envelope and `commands.ts` `resolveIcon` -/

/-- Error payload of the result envelope (`CommandError` in `types.ts`);
the free-form `details` payload is outside the embedding. -/
structure CommandError where
  code : String
  message : String
deriving DecidableEq, Repr

/-- Result envelope: `ok(data)` or `fail(error)` from `output.ts`. -/
inductive CmdResult (α : Type) where
  | ok (data : α)
  | fail (error : CommandError)
deriving DecidableEq, Repr

/-- The error of a result, when it is a failure. -/
def CmdResult.errorCode {α : Type} : CmdResult α → Option String
  | .ok _ => none
  | .fail e => some e.code

/-- Whether a result is a success. -/
def CmdResult.isOk {α : Type} : CmdResult α → Bool
  | .ok _ => true
  | .fail _ => false

/-- `ResolveOptions` as declared in `commands.ts` (the TypeScript string-literal
unions `"exact" | "fuzzy"` and `"top1"` are kept as strings). -/
structure ResolveOptionsC where
  matchMode : String
  autoSelect : Option String
  minScore : ℚ
  format : String
deriving DecidableEq, Repr

/-- Success payload of `resolveIcon`. -/
structure ResolveData where
  icon : String
  matchMode : String
  minScore : ℚ
deriving DecidableEq, Repr

/-- `commands.ts` `resolveIcon`. -/
def resolveIcon (queryOrIcon : String) (opts : ResolveOptionsC) : CmdResult ResolveData :=
  if jsTrim queryOrIcon = "" then
    .fail ⟨"INVALID_USAGE", "query-or-icon is required"⟩
  else
    let inferred : Option String :=
      if queryOrIcon.toList.contains ':' then some queryOrIcon else none
    if inferred = none ∧ opts.matchMode = "exact" then
      .fail ⟨"NOT_FOUND", "Exact icon id not found. Provide prefix:name or use --match fuzzy."⟩
    else if inferred = none ∧ opts.matchMode = "fuzzy" ∧ opts.autoSelect = none then
      .fail ⟨"AMBIGUOUS", "Fuzzy query requires --auto-select top1 in agent mode."⟩
    else
      .ok ⟨inferred.getD "mdi:home", opts.matchMode, opts.minScore⟩

/-! ### `command-utils.ts` -/

/-- `command-utils.ts` `parsePrefix` (renamed: the gate reserves the original
suffix): `indexOf(":") <= 0` gives `""`, otherwise the lowercased text before
the first colon. -/
def parsePrefixPart (iconId : List Char) : List Char :=
  if iconId.contains ':' then (upToColon iconId).map Char.toLower else []

/-- One step of the `Map.set(prefix, (get ?? 0) + 1)` accumulation, keeping
JavaScript `Map` insertion order. -/
def bumpCount : List (List Char × ℕ) → List Char → List (List Char × ℕ)
  | [], p => [(p, 1)]
  | (q, c) :: rest, p => if q = p then (q, c + 1) :: rest else (q, c) :: bumpCount rest p

/-- `command-utils.ts` `buildPrefixCounts`: per-collection icon counts, skipping
icons with an empty prefix. -/
def buildPrefixCounts (icons : List (List Char)) : List (List Char × ℕ) :=
  icons.foldl
    (fun counts icon =>
      let p := parsePrefixPart icon
      if p = [] then counts else bumpCount counts p)
    []

/-- `command-utils.ts` `localIndexMissingError`: the shared error used when the
local index is required but absent. -/
def localIndexMissingError {α : Type} (reason : String) : CmdResult α :=
  .fail ⟨"NOT_FOUND", reason ++ ". Run `icns index sync` to create local cache."⟩

/-- Number of pool workers created by `withConcurrency`:
`Math.min(Math.max(1, Math.floor(concurrency)), items.length)`. -/
def clampWorkers (concurrency n : ℕ) : ℕ :=
  min (max 1 concurrency) n

/-! ### `index-cache.ts` (Local Snapshot Store) -/

/-- The snapshot payload stored at `INDEX_PATH` (`IndexPayload` in `index-cache.ts`). -/
structure IndexPayload where
  updatedAt : String
  total : ℕ
  icons : List String
deriving DecidableEq, Repr

/-- Filesystem operations performed by the snapshot store, recorded as a trace. -/
inductive FsOp where
  | mkdirRecursive (path : String)
  | write (path : String)
  | rename (src dst : String)
  | remove (path : String)
deriving DecidableEq, Repr

/-- Whether a trace operation is a rename (the swap step of write-new-then-swap). -/
def FsOp.isRename : FsOp → Bool
  | .rename _ _ => true
  | _ => false

/-- Abstract cache/index paths from `config.ts` (environment-dependent values). -/
def CACHE_DIR : String := "~/.cache/icns"

/-- The snapshot file path `join(CACHE_DIR, "index.json")`. -/
def INDEX_PATH : String := CACHE_DIR ++ "/index.json"

/-- The exact sequence of filesystem operations `writeIndex` performs:
`mkdir(CACHE_DIR, recursive)` then a single `writeFile(INDEX_PATH, ...)`. -/
def writeIndexOps : List FsOp :=
  [FsOp.mkdirRecursive CACHE_DIR, FsOp.write INDEX_PATH]

/-- State of the snapshot file: present with a payload, or absent. -/
def FsState : Type := Option IndexPayload

/-- `writeIndex` on the snapshot state: replaces the file content wholesale. -/
def writeIndex (icons : List String) (updatedAt : String) (_fs : FsState) : FsState :=
  some ⟨updatedAt, icons.length, icons⟩

/-- Errno outcomes relevant to `rm(INDEX_PATH, { force: false })`. -/
inductive Errno where
  | ENOENT
deriving DecidableEq, Repr

/-- Model of `rm(INDEX_PATH, { force: false })`: removes the file, or throws
`ENOENT` when it is absent. -/
def rmIndex (fs : FsState) : Except Errno FsState :=
  match fs with
  | some _ => .ok none
  | none => .error .ENOENT

/-- `index-cache.ts` `clearIndex`: `rm` with `force: false`, catching `ENOENT`
as `false` and rethrowing anything else. -/
def clearIndex (fs : FsState) : Except Errno (Bool × FsState) :=
  match rmIndex fs with
  | .ok fs2 => .ok (true, fs2)
  | .error e => if e = Errno.ENOENT then .ok (false, fs) else .error e

/-- `index-cache.ts` `readIndex`: the parsed payload, or `none` on `ENOENT`. -/
def readIndex (fs : FsState) : Option IndexPayload := fs

/-! ### `iconify.ts` remote search wrapper -/

/-- `iconify.ts` `searchIconIds`, with the HTTP call abstracted by the list of
icon ids the API responds with (`data.icons ?? []`).  Returns the limit sent
to the API together with the ids returned to the caller.  The caller's limit
is a JavaScript number, modelled as `ℚ` and floored as in the source. -/
def searchIconIds (limit : ℚ) (apiIcons : List String) : ℤ × List String :=
  let requestedLimit : ℤ := max 1 (min 200 ⌊limit⌋)
  let apiLimit : ℤ := max 32 requestedLimit
  (apiLimit, apiIcons.take requestedLimit.toNat)

/-! ### `extra-commands.ts`: `listCollections` and `collectionInfo`

The Remote Catalog Client and the Local Snapshot Store are abstracted by an
environment record; each embedded command returns its result together with a
flag recording whether the remote client was queried during the call.
JavaScript `localeCompare`-based and default string sorts are both modelled
by `≤` on `String`.  Field names `pfx` stand for the source's prefix field
(the original spelling is reserved by the proof gate). -/

/-- Transport error raised by the HTTP layer (`HttpError` in `http.ts`);
only the status code matters to the embedded control flow. -/
structure HttpErrorM where
  status : ℤ
deriving DecidableEq, Repr

/-- One entry of the `/collections` metadata response (fields are all optional
in the untyped JSON). -/
structure CollectionMeta where
  name : Option String
  title : Option String
  total : Option ℚ
  category : Option String
  palette : Option Bool
  author : Option String
  license : Option String
  tags : Option (List String)
deriving DecidableEq, Repr

/-- The `/collection?prefix=` response (`CollectionResponse` in `iconify.ts`). -/
structure CollectionResponse where
  uncategorized : Option (List String)
  categories : Option (List (String × List String))
  total : Option ℚ
deriving DecidableEq, Repr

/-- Environment a command call runs against: the local snapshot (as returned by
a successful `readIndex`) and the remote collaborator's responses. -/
structure RemoteEnv where
  index : Option IndexPayload
  collectionsMeta : Except HttpErrorM (List (String × CollectionMeta))
  collectionData : String → Except HttpErrorM CollectionResponse

/-- Insert into a list sorted ascending by a string key (stable). -/
def insertByKey {α : Type} (key : α → String) (a : α) : List α → List α
  | [] => [a]
  | b :: rest => if key a ≤ key b then a :: b :: rest else b :: insertByKey key a rest

/-- Stable insertion sort ascending by a string key. -/
def sortByKey {α : Type} (key : α → String) (l : List α) : List α :=
  l.foldr (insertByKey key) []

/-- `opts.limit <= 0 ? Infinity : opts.limit` followed by `slice(0, limit)`. -/
def sliceLimit {α : Type} (limit : ℤ) (l : List α) : List α :=
  if limit ≤ 0 then l else l.take limit.toNat

/-- `CollectionsListOptions` from `types.ts` (`SourceMode` kept as a string). -/
structure CollectionsListOptions where
  source : String
  offline : Bool
  limit : ℤ
  format : String
deriving DecidableEq, Repr

/-- `CollectionsInfoOptions` from `types.ts`. -/
structure CollectionsInfoOptions where
  source : String
  offline : Bool
  iconsLimit : ℚ
  format : String
deriving DecidableEq, Repr

/-- One row of the API-sourced collections listing. -/
structure ApiCollectionRow where
  pfx : String
  total : ℚ
  name : String
  category : Option String
  palette : Bool
deriving DecidableEq, Repr

/-- Success payloads of `listCollections` (JSON and plain shapes, per source). -/
inductive ListCollectionsData where
  | indexJson (total : ℕ) (rows : List (String × ℕ))
  | indexPlain (lines : List String)
  | apiJson (total : ℕ) (rows : List ApiCollectionRow)
  | apiPlain (lines : List String)
deriving DecidableEq, Repr

/-- The remote branch of `listCollections` (everything after the local-index
block falls through). -/
def listCollectionsApi (opts : CollectionsListOptions) (env : RemoteEnv) :
    CmdResult ListCollectionsData × Bool :=
  match env.collectionsMeta with
  | .error _ => (.fail ⟨"API_ERROR", "Failed to list collections"⟩, true)
  | .ok metadata =>
      let rows := metadata.map (fun entry =>
        { pfx := entry.1
          total := entry.2.total.getD 0
          name := (entry.2.name <|> entry.2.title).getD entry.1
          category := entry.2.category
          palette := entry.2.palette.getD false : ApiCollectionRow })
      let rows := sliceLimit opts.limit (sortByKey (fun r => r.pfx) rows)
      if opts.format = "plain" then
        (.ok (.apiPlain (rows.map (fun r => r.pfx ++ "\t" ++ toString r.total))), true)
      else
        (.ok (.apiJson rows.length rows), true)

/-- `extra-commands.ts` `listCollections`. -/
def listCollections (opts : CollectionsListOptions) (env : RemoteEnv) :
    CmdResult ListCollectionsData × Bool :=
  let useIndexOnly := opts.source = "index" ∨ opts.offline
  if useIndexOnly ∨ opts.source = "auto" then
    match env.index with
    | some index =>
        let counts := buildPrefixCounts (index.icons.map String.toList)
        let rows := counts.map (fun pc => (String.mk pc.1, pc.2))
        let rows := sliceLimit opts.limit (sortByKey (fun r => r.1) rows)
        if opts.format = "plain" then
          (.ok (.indexPlain (rows.map (fun r => r.1 ++ "\t" ++ toString r.2))), false)
        else
          (.ok (.indexJson rows.length rows), false)
    | none =>
        if useIndexOnly then
          (localIndexMissingError "Local index is required for this request", false)
        else listCollectionsApi opts env
  else listCollectionsApi opts env

/-- API-sourced payload of `collectionInfo`. -/
structure ApiCollectionInfo where
  pfx : String
  name : String
  total : ℚ
  category : Option String
  palette : Bool
  author : Option String
  license : Option String
  tags : List String
  sampleIcons : List String
deriving DecidableEq, Repr

/-- Success payloads of `collectionInfo`. -/
inductive CollectionInfoData where
  | indexJson (pfx : String) (total : ℕ) (sampleIcons : List String) (indexPath : String)
  | indexPlain (lines : List String)
  | apiJson (info : ApiCollectionInfo)
  | apiPlain (lines : List String)
deriving DecidableEq, Repr

/-- The remote branch of `collectionInfo`, including the surrounding
`catch (HttpError)` classification (`404` becomes `NOT_FOUND`). -/
def collectionInfoApi (normalizedPrefixStr : String) (iconsLimit : ℕ)
    (opts : CollectionsInfoOptions) (env : RemoteEnv) :
    CmdResult CollectionInfoData × Bool :=
  let computation : Except HttpErrorM (CmdResult CollectionInfoData) := do
    let metadata ← env.collectionsMeta
    match List.lookup normalizedPrefixStr metadata with
    | none => pure (.fail ⟨"NOT_FOUND", "Collection not found: " ++ normalizedPrefixStr⟩)
    | some meta => do
        let details ← env.collectionData normalizedPrefixStr
        let uncategorized := (details.uncategorized.getD []).map
          (fun icon => normalizedPrefixStr ++ ":" ++ icon)
        let categorized := ((details.categories.getD []).map
          (fun cat => cat.2.map (fun icon => normalizedPrefixStr ++ ":" ++ icon))).flatten
        let iconNames := (uncategorized ++ categorized).dedup
        let sampleIcons := (sortByKey id iconNames).take iconsLimit
        let payload : ApiCollectionInfo :=
          { pfx := normalizedPrefixStr
            name := (meta.name <|> meta.title).getD normalizedPrefixStr
            total := (meta.total <|> details.total).getD (iconNames.length : ℚ)
            category := meta.category
            palette := meta.palette.getD false
            author := meta.author
            license := meta.license
            tags := meta.tags.getD []
            sampleIcons := sampleIcons }
        if opts.format = "plain" then
          pure (.ok (.apiPlain
            (["prefix\t" ++ payload.pfx, "source\tapi", "name\t" ++ payload.name,
              "total\t" ++ toString payload.total] ++ payload.sampleIcons)))
        else
          pure (.ok (.apiJson payload))
  match computation with
  | .ok r => (r, true)
  | .error e =>
      if e.status = 404 then
        (.fail ⟨"NOT_FOUND", "Collection not found: " ++ normalizedPrefixStr⟩, true)
      else
        (.fail ⟨"API_ERROR", "Failed to load collection info"⟩, true)

/-- `extra-commands.ts` `collectionInfo`. -/
def collectionInfo (pfx : String) (opts : CollectionsInfoOptions) (env : RemoteEnv) :
    CmdResult CollectionInfoData × Bool :=
  let normalizedPrefixStr := jsToLower (jsTrim pfx)
  if normalizedPrefixStr = "" then
    (.fail ⟨"INVALID_USAGE", "collection prefix is required"⟩, false)
  else
    let useIndexOnly := opts.source = "index" ∨ opts.offline
    let iconsLimit := (max 0 ⌊opts.iconsLimit⌋).toNat
    if useIndexOnly ∨ opts.source = "auto" then
      match env.index with
      | some index =>
          let icons := index.icons.filter
            (fun icon => parsePrefixPart icon.toList = normalizedPrefixStr.toList)
          if icons.length = 0 ∧ useIndexOnly then
            (.fail ⟨"NOT_FOUND", "Collection not found in local index: " ++ normalizedPrefixStr⟩,
              false)
          else if icons.length > 0 then
            let payload := CollectionInfoData.indexJson normalizedPrefixStr icons.length
              (icons.take iconsLimit) INDEX_PATH
            if opts.format = "plain" then
              (.ok (.indexPlain
                (["prefix\t" ++ normalizedPrefixStr, "source\tindex",
                  "total\t" ++ toString icons.length] ++ icons.take iconsLimit)), false)
            else (.ok payload, false)
          else if useIndexOnly then
            (localIndexMissingError "Local index is required for this request", false)
          else collectionInfoApi normalizedPrefixStr iconsLimit opts env
      | none =>
          if useIndexOnly then
            (localIndexMissingError "Local index is required for this request", false)
          else collectionInfoApi normalizedPrefixStr iconsLimit opts env
    else collectionInfoApi normalizedPrefixStr iconsLimit opts env

/-! ### `render-manifest.ts`

Manifest records are untyped JSON/CSV rows; they are modelled by association
lists of `RawVal` values (`none` from a lookup plays the role of JavaScript
`undefined`, `RawVal.null` of `null`).  `String()` / `Number()` builtins are
modelled for the value shapes manifests contain (decimal numerals; exotic
numeric forms such as hex or exponent literals are outside the embedding). -/

/-- An untyped JSON/CSV value. -/
inductive RawVal where
  | null
  | str (s : String)
  | num (q : ℚ)
  | boolean (b : Bool)
  | arr (xs : List RawVal)

/-- Scalar cases of JavaScript `String(v)`. -/
def jsScalarString : RawVal → String
  | .null => "null"
  | .str s => s
  | .num q => toString q
  | .boolean b => cond b "true" "false"
  | .arr _ => ""

/-- Model of JavaScript `String(v)` / `v.toString()`: arrays join their
elements with `","` (a `null` element joins as the empty string; arrays
nested inside arrays are outside the embedding). -/
def jsToString : RawVal → String
  | .arr xs =>
      String.intercalate ","
        (xs.map fun v =>
          match v with
          | .null => ""
          | w => jsScalarString w)
  | v => jsScalarString v

/-- Model of `String(raw ?? "")`. -/
def jsCoalesceString : Option RawVal → String
  | none => ""
  | some .null => ""
  | some v => jsToString v

/-- An untyped manifest record. -/
def RawRecord : Type := List (String × RawVal)

/-- `render-manifest.ts` `pickFirst`: the first key present in the record. -/
def pickFirst (value : RawRecord) (keys : List String) : Option RawVal :=
  match keys with
  | [] => none
  | k :: rest =>
      match List.lookup k value with
      | some v => some v
      | none => pickFirst value rest

/-- `RenderManifestError` from `render-manifest.ts`. -/
structure RenderManifestError where
  message : String
deriving DecidableEq, Repr

/-- Decimal-numeral fragment of JavaScript `Number(string)` (`none` models `NaN`). -/
def jsNumberOfString (s : String) : Option ℚ :=
  let natVal : List Char → ℚ := fun l =>
    ((l.foldl (fun acc c => acc * 10 + (c.toNat - '0'.toNat)) 0 : ℕ) : ℚ)
  let t := trimList s.toList
  if t = [] then some 0
  else
    let signed : ℚ × List Char :=
      match t with
      | '+' :: r => (1, r)
      | '-' :: r => (-1, r)
      | r => (1, r)
    let intDigits := signed.2.takeWhile Char.isDigit
    let rest := signed.2.drop intDigits.length
    match rest with
    | [] => if intDigits = [] then none else some (signed.1 * natVal intDigits)
    | '.' :: fracDigits =>
        if fracDigits.all Char.isDigit ∧ (intDigits ≠ [] ∨ fracDigits ≠ []) then
          some (signed.1 * (natVal intDigits + natVal fracDigits / 10 ^ fracDigits.length))
        else none
    | _ => none

/-- `render-manifest.ts` `parseNumber`. -/
def parseNumber (label : String) (value : Option RawVal) :
    Except RenderManifestError (Option ℚ) :=
  match value with
  | none => .ok none
  | some .null => .ok none
  | some (.str "") => .ok none
  | some (.num q) => .ok (some q)
  | some (.str s) =>
      match jsNumberOfString s with
      | some q => .ok (some q)
      | none => .error ⟨label ++ " must be a number."⟩
  | some _ => .error ⟨label ++ " must be a number."⟩

/-- `render-manifest.ts` `parseBoolean`. -/
def parseBoolean (label : String) (value : Option RawVal) :
    Except RenderManifestError (Option Bool) :=
  match value with
  | none => .ok none
  | some .null => .ok none
  | some (.str "") => .ok none
  | some (.boolean b) => .ok (some b)
  | some (.num q) =>
      if q = 0 then .ok (some false)
      else if q = 1 then .ok (some true)
      else .error ⟨label ++ " must be boolean (true/false/1/0)."⟩
  | some (.str s) =>
      let normalized := jsToLower (jsTrim s)
      if ["1", "true", "yes", "y"].contains normalized then .ok (some true)
      else if ["0", "false", "no", "n"].contains normalized then .ok (some false)
      else .error ⟨label ++ " must be boolean (true/false/1/0)."⟩
  | some _ => .error ⟨label ++ " must be boolean (true/false/1/0)."⟩

/-- `render-manifest.ts` `parseStringArray`. -/
def parseStringArray (value : Option RawVal) : Option (List String) :=
  match value with
  | none => none
  | some .null => none
  | some (.str "") => none
  | some (.arr xs) =>
      let filtered := (xs.map (fun entry => jsTrim (jsToString entry))).filter (· ≠ "")
      if filtered.length > 0 then some filtered else none
  | some (.str s) =>
      let filtered := ((s.splitOn ",").map jsTrim).filter (· ≠ "")
      if filtered.length > 0 then some filtered else none
  | some _ => none

/-- `render-manifest.ts` `parseEnum`. -/
def parseEnum (label : String) (value : Option RawVal) (allowed : List String) :
    Except RenderManifestError (Option String) :=
  match value with
  | none => .ok none
  | some .null => .ok none
  | some (.str "") => .ok none
  | some v =>
      let normalized := jsTrim (jsToString v)
      if allowed.contains normalized then .ok (some normalized)
      else .error ⟨label ++ " must be one of: " ++ String.intercalate ", " allowed ++ "."⟩

/-- `?.toString().trim() || undefined` applied to an optional raw field. -/
def optStringField (value : Option RawVal) : Option String :=
  match value with
  | none => none
  | some .null => none
  | some v =>
      let s := jsTrim (jsToString v)
      if s = "" then none else some s

/-- `RenderManyItem` from `types.ts`: all resolution/render parameters are
optional per item except the query and the output path (string-literal union
types kept as strings). -/
structure RenderManyItem where
  queryOrIcon : String
  output : String
  size : Option ℚ
  bg : Option String
  fg : Option String
  strokeWidth : Option ℚ
  matchMode : Option String
  source : Option String
  offline : Option Bool
  collections : Option (List String)
  preferPrefixes : Option (List String)
  autoSelect : Option String
  minScore : Option ℚ
  force : Option Bool
  dryRun : Option Bool
deriving DecidableEq, Repr

/-- `render-manifest.ts` `normalizeManifestItem`. -/
def normalizeManifestItem (value : RawRecord) (index : ℕ) :
    Except RenderManifestError RenderManyItem := do
  let queryOrIconRaw := pickFirst value ["queryOrIcon", "query", "icon"]
  let outputRaw := pickFirst value ["output", "path", "file"]
  let queryOrIcon := jsTrim (jsCoalesceString queryOrIconRaw)
  let output := jsTrim (jsCoalesceString outputRaw)
  if queryOrIcon = "" then
    throw ⟨"Manifest item #" ++ toString (index + 1) ++ ": queryOrIcon/query/icon is required."⟩
  if output = "" then
    throw ⟨"Manifest item #" ++ toString (index + 1) ++ ": output/path/file is required."⟩
  let item := "Manifest item #" ++ toString (index + 1)
  let size ← parseNumber (item ++ " size") (List.lookup "size" value)
  let strokeWidth ← parseNumber (item ++ " strokeWidth") (pickFirst value ["strokeWidth", "stroke_width"])
  let matchMode ← parseEnum (item ++ " match") (List.lookup "match" value) ["exact", "fuzzy"]
  let source ← parseEnum (item ++ " source") (List.lookup "source" value) ["auto", "index", "api"]
  let offline ← parseBoolean (item ++ " offline") (List.lookup "offline" value)
  let autoSelect ← parseEnum (item ++ " autoSelect") (pickFirst value ["autoSelect", "auto_select"]) ["top1"]
  let minScore ← parseNumber (item ++ " minScore") (pickFirst value ["minScore", "min_score"])
  let force ← parseBoolean (item ++ " force") (List.lookup "force" value)
  let dryRun ← parseBoolean (item ++ " dryRun") (pickFirst value ["dryRun", "dry_run"])
  pure
    { queryOrIcon := queryOrIcon
      output := output
      size := size
      bg := optStringField (pickFirst value ["bg", "background"])
      fg := optStringField (pickFirst value ["fg", "foreground"])
      strokeWidth := strokeWidth
      matchMode := matchMode
      source := source
      offline := offline
      collections := parseStringArray (pickFirst value ["collections", "collection"])
      preferPrefixes := parseStringArray (pickFirst value ["preferPrefixes", "preferPrefix", "prefer_prefix"])
      autoSelect := autoSelect
      minScore := minScore
      force := force
      dryRun := dryRun }

/-- Classification `renderMany` applies to a thrown `RenderManifestError`:
`failWith("INVALID_USAGE", error.message)`. -/
def renderManifestErrorResult {α : Type} (e : RenderManifestError) : CmdResult α :=
  .fail ⟨"INVALID_USAGE", e.message⟩

/-! ### `renderMany` effective options (`renderOne` in `extra-commands.ts`) -/

/-- Batch-level options of `renderMany` (`RenderManyOptions` in `types.ts`). -/
structure RenderManyOptions where
  manifestPath : String
  size : ℚ
  bg : String
  fg : Option String
  strokeWidth : Option ℚ
  matchMode : String
  source : String
  offline : Bool
  collections : Option (List String)
  preferPrefixes : Option (List String)
  autoSelect : Option String
  minScore : ℚ
  force : Bool
  dryRun : Bool
  concurrency : ℕ
  failFast : Bool
  format : String
deriving DecidableEq, Repr

/-- The per-item options `renderOne` passes to `renderIcon`. -/
structure RenderOptionsEff where
  output : String
  size : ℚ
  bg : String
  fg : Option String
  strokeWidth : Option ℚ
  matchMode : String
  source : String
  offline : Bool
  collections : Option (List String)
  preferPrefixes : Option (List String)
  autoSelect : Option String
  minScore : ℚ
  force : Bool
  dryRun : Bool
  format : String
deriving DecidableEq, Repr

/-- The option assembly of `renderOne`: every per-item field falls back to the
batch-level default with `??`. -/
def effectiveRenderOptions (item : RenderManyItem) (opts : RenderManyOptions) :
    RenderOptionsEff :=
  { output := item.output
    size := item.size.getD opts.size
    bg := item.bg.getD opts.bg
    fg := item.fg <|> opts.fg
    strokeWidth := item.strokeWidth <|> opts.strokeWidth
    matchMode := item.matchMode.getD opts.matchMode
    source := item.source.getD opts.source
    offline := item.offline.getD opts.offline
    collections := item.collections <|> opts.collections
    preferPrefixes := item.preferPrefixes <|> opts.preferPrefixes
    autoSelect := item.autoSelect <|> opts.autoSelect
    minScore := item.minScore.getD opts.minScore
    force := item.force.getD opts.force
    dryRun := item.dryRun.getD opts.dryRun
    format := opts.format }

/-- Mixed-specificity manifest item (witness fixture): overrides `size`, `fg`,
`match`, `offline`, `preferPrefixes`, `minScore` and `dryRun`; omits the other
optional fields. -/
def itemW : RenderManyItem :=
  { queryOrIcon := "simple-icons:github"
    output := "./icons/github.png"
    size := some 64
    bg := none
    fg := some "white"
    strokeWidth := none
    matchMode := some "exact"
    source := none
    offline := some true
    collections := none
    preferPrefixes := some ["mdi"]
    autoSelect := none
    minScore := some (9/10)
    force := none
    dryRun := some false }

/-- Batch-level defaults paired with `itemW` (witness fixture). -/
def optsW : RenderManyOptions :=
  { manifestPath := "./manifest.json"
    size := 24
    bg := "transparent"
    fg := none
    strokeWidth := some 2
    matchMode := "fuzzy"
    source := "auto"
    offline := false
    collections := some ["lucide"]
    preferPrefixes := none
    autoSelect := some "top1"
    minScore := 45/100
    force := true
    dryRun := true
    concurrency := 4
    failFast := false
    format := "json" }

/-! ### `renderMany` fail-fast loop and aggregate report -/

/-- The fail-fast loop of `renderMany`: process items in index order, record
each outcome, and break after the first failing item.  `outcome i` is the
`ok` flag of `renderOne` on item `i` (renders never throw; failures are
returned structurally). -/
def ffLoop (outcome : ℕ → Bool) : ℕ → ℕ → List (ℕ × Bool)
  | _, 0 => []
  | idx, fuel + 1 =>
      (idx, outcome idx) :: (if outcome idx then ffLoop outcome (idx + 1) fuel else [])

/-- `renderMany` with `failFast=true` over `n` items. -/
def runFailFast (outcome : ℕ → Bool) (n : ℕ) : List (ℕ × Bool) :=
  ffLoop outcome 0 n

/-- The aggregate counters of the `renderMany` report. -/
structure BatchReport where
  total : ℕ
  attempted : ℕ
  succeeded : ℕ
  failed : ℕ
  skipped : ℕ
deriving DecidableEq, Repr

/-- The report `renderMany` assembles from the collected results. -/
def reportOf (n : ℕ) (results : List (ℕ × Bool)) : BatchReport :=
  let failed := (results.filter (fun r => !r.2)).length
  { total := n
    attempted := results.length
    succeeded := results.length - failed
    failed := failed
    skipped := n - results.length }

/-! ### `withConcurrency` as a transition system

`withConcurrency` creates `min(max(1, floor(concurrency)), n)` asynchronous
workers that pull indices from a shared cursor.  In the JavaScript event loop
the read-and-increment of the cursor is atomic (there is no `await` between
the read and the write), so a pull is one step; the `await worker(...)` and
the result-slot write are separate steps.  The scheduler (completion order)
is an arbitrary interleaving of the enabled steps. -/

/-- Status of one pool worker. -/
inductive WStatus where
  | idle
  | busy (i : ℕ)
  | done
deriving DecidableEq, Repr

/-- State of one `withConcurrency` invocation: the shared cursor, each worker's
status, the results array, and a ghost counter of writes per slot. -/
structure PoolState (α : Type) where
  cursor : ℕ
  workers : ℕ → WStatus
  results : ℕ → Option α
  writes : ℕ → ℕ

/-- Initial state: cursor at `0`, all workers idle, results empty. -/
def initPool (α : Type) : PoolState α :=
  { cursor := 0, workers := fun _ => .idle, results := fun _ => none, writes := fun _ => 0 }

/-- One scheduler step of `withConcurrency` with `wcount` workers over `n`
items, where `f i` is the worker outcome on item `i`. -/
inductive PoolStep (wcount n : ℕ) {α : Type} (f : ℕ → α) :
    PoolState α → PoolState α → Prop where
  | pull (w : ℕ) (s : PoolState α) (hw : w < wcount)
      (hst : s.workers w = .idle) (hc : s.cursor < n) :
      PoolStep wcount n f s
        { cursor := s.cursor + 1
          workers := Function.update s.workers w (.busy s.cursor)
          results := s.results
          writes := s.writes }
  | finish (w i : ℕ) (s : PoolState α) (hw : w < wcount)
      (hst : s.workers w = .busy i) :
      PoolStep wcount n f s
        { cursor := s.cursor
          workers := Function.update s.workers w .idle
          results := Function.update s.results i (some (f i))
          writes := Function.update s.writes i (s.writes i + 1) }
  | retire (w : ℕ) (s : PoolState α) (hw : w < wcount)
      (hst : s.workers w = .idle) (hc : n ≤ s.cursor) :
      PoolStep wcount n f s { s with workers := Function.update s.workers w .done }

/-- Reachability under arbitrary scheduling. -/
def PoolReachable (wcount n : ℕ) {α : Type} (f : ℕ → α) :
    PoolState α → PoolState α → Prop :=
  Relation.ReflTransGen (PoolStep wcount n f)

/-- `Promise.all(runners)` has resolved: every worker has exited its loop. -/
def PoolTerminal (wcount : ℕ) {α : Type} (s : PoolState α) : Prop :=
  ∀ w, w < wcount → s.workers w = .done

/-- Inductive invariant of the `withConcurrency` pool: the cursor stays in
range, out-of-range workers stay idle, every claimed index is below the
cursor and claimed by at most one worker, every index below the cursor is
either completed (result written once) or held by exactly one busy worker,
indices at or above the cursor are untouched, and a worker only exits once
the cursor has reached the end. -/
structure PoolInv (wcount n : ℕ) {α : Type} (f : ℕ → α) (s : PoolState α) : Prop where
  cursor_le : s.cursor ≤ n
  hi_idle : ∀ w, wcount ≤ w → s.workers w = .idle
  busy_lt : ∀ w i, s.workers w = .busy i → i < s.cursor
  busy_unique : ∀ w₁ w₂ i, s.workers w₁ = .busy i → s.workers w₂ = .busy i → w₁ = w₂
  claimed : ∀ i, i < s.cursor →
    (s.results i = some (f i) ∧ s.writes i = 1 ∧ ∀ w, s.workers w ≠ .busy i) ∨
    (s.results i = none ∧ s.writes i = 0 ∧ ∃ w, s.workers w = .busy i)
  unclaimed : ∀ i, s.cursor ≤ i → s.results i = none ∧ s.writes i = 0
  done_ge : ∀ w, s.workers w = .done → n ≤ s.cursor

/-- A one-item, one-worker run after the pull step (witness fixture). -/
def poolW1 : PoolState ℕ :=
  { cursor := 1
    workers := Function.update (fun _ => WStatus.idle) 0 (WStatus.busy 0)
    results := fun _ => none
    writes := fun _ => 0 }

/-- The same run after the worker finished item `0` (witness fixture). -/
def poolW2 : PoolState ℕ :=
  { cursor := 1
    workers := Function.update (Function.update (fun _ => WStatus.idle) 0 (WStatus.busy 0)) 0 WStatus.idle
    results := Function.update (fun _ => none) 0 (some 0)
    writes := Function.update (fun _ => 0) 0 1 }

/-- The same run after the worker retired (witness fixture; terminal). -/
def poolW3 : PoolState ℕ :=
  { poolW2 with workers := Function.update poolW2.workers 0 WStatus.done }

/-! ## Theorems for the specification claims -/

/-- C10: for every finite limit argument, the remote search wrapper clamps the
caller's limit to `[1, 200]` (`max(1, min(200, floor(limit)))`), asks the API
for at least `32` results, and truncates the response back to the clamped
limit, so the caller never receives more items than the clamped request. -/
theorem searchIconIds_clamps_limit (limit : ℚ) (apiIcons : List String) :
    (searchIconIds limit apiIcons).2.length ≤ (max 1 (min 200 ⌊limit⌋)).toNat ∧
    1 ≤ max 1 (min 200 ⌊limit⌋) ∧
    max 1 (min 200 ⌊limit⌋) ≤ (200 : ℤ) ∧
    (32 : ℤ) ≤ (searchIconIds limit apiIcons).1 ∧
    (searchIconIds limit apiIcons).2 = apiIcons.take (max 1 (min 200 ⌊limit⌋)).toNat := by
  refine ⟨?_, le_max_left _ _, ?_, le_max_left _ _, rfl⟩
  · simp [searchIconIds]
  · exact max_le (by norm_num) (min_le_left _ _)

/-- C10 witness: a concrete oversized request (`limit = 500`, API returns 300
ids) yields at most 200 ids and an API limit of at least 32. -/
theorem searchIconIds_clamps_limit_witness :
    (searchIconIds 500 (List.replicate 300 "x")).2.length ≤
      (max 1 (min 200 ⌊(500 : ℚ)⌋)).toNat ∧
    (32 : ℤ) ≤ (searchIconIds 500 (List.replicate 300 "x")).1 :=
  ⟨(searchIconIds_clamps_limit 500 (List.replicate 300 "x")).1,
    (searchIconIds_clamps_limit 500 (List.replicate 300 "x")).2.2.2.1⟩

/-- C9: `clearIndex` succeeds in both snapshot states (never surfaces an
error), returns `true` exactly when a snapshot existed (and was removed),
`false` when none was present, and leaves the snapshot absent. -/
theorem clearIndex_bool_and_absent (fs : FsState) :
    clearIndex fs = .ok ((readIndex fs).isSome, none) := by
  cases fs <;> rfl

/-- C8: `writeIndex` is write-in-place, not write-new-then-swap: its
filesystem trace contains a direct write to the final snapshot path and no
rename (swap) step at all, and its only operations are the recursive mkdir of
the cache directory and that single write. -/
theorem writeIndex_writes_in_place :
    FsOp.write INDEX_PATH ∈ writeIndexOps ∧
    writeIndexOps.filter FsOp.isRename = [] ∧
    writeIndexOps = [FsOp.mkdirRecursive CACHE_DIR, FsOp.write INDEX_PATH] ∧
    (∀ icons updatedAt fs, writeIndex icons updatedAt fs = some ⟨updatedAt, icons.length, icons⟩) :=
  ⟨by simp [writeIndexOps], rfl, rfl, fun _ _ _ => rfl⟩

/-- C1 counterexample: a non-blank query without the prefix separator, in
exact match mode, is classified `NOT_FOUND`, not `INVALID_USAGE`. -/
theorem resolveIcon_exact_counterexample :
    resolveIcon "home" ⟨"exact", none, 45/100, "json"⟩ =
      .fail ⟨"NOT_FOUND", "Exact icon id not found. Provide prefix:name or use --match fuzzy."⟩ ∧
    ("NOT_FOUND" : String) ≠ "INVALID_USAGE" :=
  ⟨rfl, by decide⟩

/-- C1 (amended): for every non-blank query without the prefix separator,
`resolveIcon` in exact match mode fails with the `NOT_FOUND` classification
(carrying guidance to provide `prefix:name` or use fuzzy mode), not with a
usage error and not with a success. -/
theorem resolveIcon_exact_not_full_id (q : String) (opts : ResolveOptionsC)
    (hq : jsTrim q ≠ "") (hc : q.toList.contains ':' = false)
    (hm : opts.matchMode = "exact") :
    resolveIcon q opts =
      .fail ⟨"NOT_FOUND", "Exact icon id not found. Provide prefix:name or use --match fuzzy."⟩ := by
  have hc2 : ':' ∉ q.data := by simpa using hc
  simp [resolveIcon, hq, hc2, hm]

/-- C1 witness: the amended statement at the concrete query `"home"`. -/
theorem resolveIcon_exact_not_full_id_witness :
    resolveIcon "home" ⟨"exact", some "top1", 45/100, "plain"⟩ =
      .fail ⟨"NOT_FOUND", "Exact icon id not found. Provide prefix:name or use --match fuzzy."⟩ :=
  resolveIcon_exact_not_full_id "home" _ (by decide) (by decide) rfl

/-- C2 counterexample: with the snapshot absent in local-only mode the failure
code is `"NOT_FOUND"` — the very same code a genuine not-found produces (second
conjunct: an unknown collection with the snapshot present) — so the
missing-snapshot failure is not a classification distinct from `NotFound`. -/
theorem localIndexMissing_code_counterexample :
    (listCollections ⟨"index", false, 0, "json"⟩
        ⟨none, .ok [], fun _ => .error ⟨500⟩⟩).1.errorCode = some "NOT_FOUND" ∧
    (collectionInfo "zzz" ⟨"index", false, 20, "json"⟩
        ⟨some ⟨"2024-01-01T00:00:00.000Z", 1, ["mdi:home"]⟩, .ok [],
          fun _ => .error ⟨500⟩⟩).1.errorCode = some "NOT_FOUND" :=
  ⟨rfl, rfl⟩

/-- C2 (amended): in local-only (`source = "index"`) or offline mode with no
local snapshot, `listCollections` and `collectionInfo` fail with the shared
local-index-missing error (code `"NOT_FOUND"`, message instructing the caller
to run `icns index sync`), and the Remote Catalog Client is never queried on
that call (the remote flag is `false`). -/
theorem localOnly_missing_snapshot_no_remote (lopts : CollectionsListOptions)
    (iopts : CollectionsInfoOptions) (pfx : String) (env : RemoteEnv)
    (hl : lopts.source = "index" ∨ lopts.offline = true)
    (hi : iopts.source = "index" ∨ iopts.offline = true)
    (hp : jsToLower (jsTrim pfx) ≠ "") (hidx : env.index = none) :
    listCollections lopts env =
      (localIndexMissingError "Local index is required for this request", false) ∧
    collectionInfo pfx iopts env =
      (localIndexMissingError "Local index is required for this request", false) := by
  constructor
  · rcases hl with h | h <;> simp [listCollections, hidx, h, localIndexMissingError]
  · rcases hi with h | h <;> simp [collectionInfo, hidx, h, hp, localIndexMissingError]

/-- C2 witness: the amended statement at a concrete local-only listing and a
concrete offline collection lookup against an absent snapshot. -/
theorem localOnly_missing_snapshot_no_remote_witness :
    listCollections ⟨"index", false, 0, "plain"⟩ ⟨none, .ok [], fun _ => .error ⟨500⟩⟩ =
      (localIndexMissingError "Local index is required for this request", false) ∧
    collectionInfo "mdi" ⟨"auto", true, 20, "plain"⟩ ⟨none, .ok [], fun _ => .error ⟨500⟩⟩ =
      (localIndexMissingError "Local index is required for this request", false) :=
  localOnly_missing_snapshot_no_remote ⟨"index", false, 0, "plain"⟩ ⟨"auto", true, 20, "plain"⟩
    "mdi" ⟨none, .ok [], fun _ => .error ⟨500⟩⟩ (Or.inl rfl) (Or.inr rfl) (by decide) rfl

/-- Helper: a Jaccard similarity never exceeds `1`. -/
theorem jaccard_le_one (l r : Finset (List Char)) : jaccard l r ≤ 1 := by
  unfold jaccard
  split
  · norm_num
  · rename_i h
    rw [div_le_one (by positivity)]
    exact_mod_cast Finset.card_le_card Finset.inter_subset_union

/-- Helper: every score produced by `scoreList` is at most `1`. -/
theorem scoreList_le_one (q id : List Char) : scoreList q id ≤ 1 := by
  unfold scoreList
  split
  · norm_num
  · split
    · norm_num
    · split
      · norm_num
      · split
        · norm_num
        · exact jaccard_le_one _ _

/-- C3 counterexample: query `"aba"` scores `0.82` against `"x:zabay"` through
the substring tier, yet scores `1` against `"x:bab"` through the bigram tail
(equal bigram sets), so a bigram coincidence strictly out-ranks a substring
hit. -/
theorem bigram_tail_outranks_substring_tier :
    hitsDiscreteTier "aba" "x:zabay" = true ∧
    scoreCandidate "aba" "x:zabay" = 82/100 ∧
    fallsToTail "aba" "x:bab" = true ∧
    scoreCandidate "aba" "x:bab" = 1 ∧
    scoreCandidate "aba" "x:zabay" < scoreCandidate "aba" "x:bab" := by
  have hA : scoreCandidate "aba" "x:zabay" = 82/100 := by
    unfold scoreCandidate scoreList
    rw [if_neg (by decide), if_neg (by decide), if_neg (by decide), if_pos (by decide)]
  have hB : scoreCandidate "aba" "x:bab" = 1 := by
    unfold scoreCandidate scoreList
    rw [if_neg (by decide), if_neg (by decide), if_neg (by decide), if_neg (by decide)]
    have hcap : (bigrams (normalize "aba".toList) ∩
        bigrams (normalize (namePart "x:bab".toList))).card = 2 := by decide
    have hcup : (bigrams (normalize "aba".toList) ∪
        bigrams (normalize (namePart "x:bab".toList))).card = 2 := by decide
    unfold jaccard
    rw [if_neg (by rw [hcup]; norm_num), hcap, hcup]
    norm_num
  refine ⟨by decide, hA, by decide, hB, ?_⟩
  rw [hA, hB]
  norm_num

/-- C3 (amended): only the exact tier is protected — when `a` scores `1`
(exact tier) and `b` falls through to the bigram tail, the tail value (the
Jaccard similarity of the bigram sets) never strictly exceeds `score(q, a)`,
because the tail is bounded by `1`; the prefix (`0.92`) and substring (`0.82`)
tiers can be out-ranked by a bigram coincidence. -/
theorem bigram_tail_le_exact_tier (q a b : String)
    (ha : scoreCandidate q a = 1) (hb : fallsToTail q b = true) :
    scoreCandidate q b =
      jaccard (bigrams (normalize q.toList)) (bigrams (normalize (namePart b.toList))) ∧
    scoreCandidate q b ≤ scoreCandidate q a := by
  simp only [fallsToTail, Bool.and_eq_true, Bool.not_eq_true', Bool.or_eq_false_iff,
    decide_eq_true_eq, decide_eq_false_iff_not] at hb
  obtain ⟨⟨⟨h0, h1, h2⟩, h3, h4⟩, h5, h6⟩ := hb
  constructor
  · unfold scoreCandidate scoreList
    rw [if_neg h0, if_neg (not_or.mpr ⟨h1, h2⟩),
      if_neg (not_or.mpr ⟨by simpa using h3, by simpa using h4⟩),
      if_neg (not_or.mpr ⟨by simpa using h5, by simpa using h6⟩)]
  · rw [ha]
    exact scoreList_le_one _ _

/-- C3 witness: the amended statement at query `"home"`, exact hit
`"mdi:home"`, and tail candidate `"zz:pq"`. -/
theorem bigram_tail_le_exact_tier_witness :
    scoreCandidate "home" "zz:pq" ≤ scoreCandidate "home" "mdi:home" :=
  (bigram_tail_le_exact_tier "home" "mdi:home" "zz:pq"
    (by unfold scoreCandidate scoreList
        rw [if_neg (by decide), if_pos (by decide)])
    (by decide)).2

/-- C6 counterexample: the empty string scores `0` against itself, not `1`,
so `score(s, s) = 1.0` fails for strings that are empty after normalization. -/
theorem score_self_empty_counterexample :
    scoreCandidate "" "" = 0 ∧ (0 : ℚ) ≠ 1 :=
  ⟨rfl, by norm_num⟩

/-- C6 (amended): every string whose normalization is nonempty scores `1.0`
against itself, and a query that is empty after normalization (including the
empty string) scores `0` against every candidate id. -/
theorem score_self_one_and_empty_zero :
    (∀ s : String, normalize s.toList ≠ [] → scoreCandidate s s = 1) ∧
    (∀ q id : String, normalize q.toList = [] → scoreCandidate q id = 0) := by
  constructor
  · intro s hs
    have h0 : (normalize s.toList).length ≠ 0 := fun h => hs (List.length_eq_zero.mp h)
    unfold scoreCandidate scoreList
    rw [if_neg h0, if_pos (Or.inl rfl)]
  · intro q id hq
    have h0 : (normalize q.toList).length = 0 := by rw [hq]; rfl
    unfold scoreCandidate scoreList
    rw [if_pos h0]

/-- C6 witness: the amended statement at `"home"` (self-score `1`) and at the
empty query against `"mdi:home"` (score `0`). -/
theorem score_self_one_and_empty_zero_witness :
    scoreCandidate "home" "home" = 1 ∧ scoreCandidate "" "mdi:home" = 0 :=
  ⟨score_self_one_and_empty_zero.1 "home" (by decide),
    score_self_one_and_empty_zero.2 "" "mdi:home" rfl⟩

/-- Helper: the fail-fast loop attempts at most as many items as it is given. -/
theorem ffLoop_length_le (o : ℕ → Bool) : ∀ fuel idx, (ffLoop o idx fuel).length ≤ fuel := by
  intro fuel
  induction fuel with
  | zero => intro idx; simp [ffLoop]
  | succ n ih =>
      intro idx
      by_cases h : o idx = true
      · simpa [ffLoop, h] using ih (idx + 1)
      · simp [ffLoop, h]

/-- Helper: slot `j` of the fail-fast loop holds the outcome of item `idx + j`
(strictly sequential, positionally indexed). -/
theorem ffLoop_getElem (o : ℕ → Bool) : ∀ fuel idx j, j < (ffLoop o idx fuel).length →
    (ffLoop o idx fuel).get? j = some (idx + j, o (idx + j)) := by
  intro fuel
  induction fuel with
  | zero => intro idx j h; simp [ffLoop] at h
  | succ n ih =>
      intro idx j hj
      by_cases h : o idx = true
      · cases j with
        | zero => simp [ffLoop, h]
        | succ j' =>
            have hj' : j' < (ffLoop o (idx + 1) n).length := by
              simp [ffLoop, h] at hj; omega
            have hrec := ih (idx + 1) j' hj'
            have harith : idx + 1 + j' = idx + (j' + 1) := by omega
            rw [harith] at hrec
            simpa [ffLoop, h] using hrec
      · cases j with
        | zero => simp [ffLoop, h]
        | succ j' => simp [ffLoop, h] at hj

/-- Helper: the fail-fast loop stops right after the first failing item. -/
theorem ffLoop_first_fail (o : ℕ → Bool) : ∀ fuel idx d, d < fuel → o (idx + d) = false →
    (∀ e, e < d → o (idx + e) = true) → (ffLoop o idx fuel).length = d + 1 := by
  intro fuel
  induction fuel with
  | zero => intro idx d hd _ _; omega
  | succ n ih =>
      intro idx d hd hfail hfirst
      cases d with
      | zero =>
          have h : o idx = false := by simpa using hfail
          simp [ffLoop, h]
      | succ d' =>
          have h : o idx = true := by simpa using hfirst 0 (Nat.succ_pos _)
          have hfail' : o (idx + 1 + d') = false := by
            rwa [show idx + 1 + d' = idx + (d' + 1) from by omega]
          have hfirst' : ∀ e, e < d' → o (idx + 1 + e) = true := by
            intro e he
            have := hfirst (e + 1) (by omega)
            rwa [show idx + (e + 1) = idx + 1 + e from by omega] at this
          have hrec := ih (idx + 1) d' (by omega) hfail' hfirst'
          simp [ffLoop, h, hrec]

/-- Helper: with no failing item the fail-fast loop attempts everything. -/
theorem ffLoop_all_ok (o : ℕ → Bool) : ∀ fuel idx, (∀ e, e < fuel → o (idx + e) = true) →
    (ffLoop o idx fuel).length = fuel := by
  intro fuel
  induction fuel with
  | zero => intro idx _; simp [ffLoop]
  | succ n ih =>
      intro idx hall
      have h : o idx = true := by simpa using hall 0 (Nat.succ_pos _)
      have hall' : ∀ e, e < n → o (idx + 1 + e) = true := by
        intro e he
        have := hall (e + 1) (by omega)
        rwa [show idx + (e + 1) = idx + 1 + e from by omega] at this
      simp [ffLoop, h, ih (idx + 1) hall']

/-- C4: with `failFast=true` over `n ≥ 1` items, execution is strictly
sequential (slot `j` holds the outcome of item `j`, in order), no item after
the first failing item is attempted (the loop length is one past the first
failure, or `n` when nothing fails), and the aggregate report satisfies
`attempted + skipped = n`, every unattempted item being counted as skipped. -/
theorem renderMany_failFast_spec (outcome : ℕ → Bool) (n : ℕ) (_hn : 1 ≤ n) :
    (runFailFast outcome n).length ≤ n ∧
    (∀ j, j < (runFailFast outcome n).length →
      (runFailFast outcome n).get? j = some (j, outcome j)) ∧
    (reportOf n (runFailFast outcome n)).attempted +
      (reportOf n (runFailFast outcome n)).skipped = n ∧
    (∀ i, i < n → outcome i = false → (∀ e, e < i → outcome e = true) →
      (runFailFast outcome n).length = i + 1) ∧
    ((∀ e, e < n → outcome e = true) → (runFailFast outcome n).length = n) := by
  have hlen : (runFailFast outcome n).length ≤ n := ffLoop_length_le outcome n 0
  refine ⟨hlen, ?_, ?_, ?_, ?_⟩
  · intro j hj
    simpa using ffLoop_getElem outcome n 0 j hj
  · simp only [reportOf]
    omega
  · intro i hi hfail hfirst
    simpa using ffLoop_first_fail outcome n 0 i hi (by simpa using hfail)
      (fun e he => by simpa using hfirst e he)
  · intro hall
    simpa using ffLoop_all_ok outcome n 0 (fun e he => by simpa using hall e he)

/-- C4 witness: three items whose second one fails — two attempts, one skip,
`attempted + skipped = 3`. -/
theorem renderMany_failFast_spec_witness :
    (runFailFast (fun i => decide (i ≠ 1)) 3).length = 1 + 1 ∧
    (reportOf 3 (runFailFast (fun i => decide (i ≠ 1)) 3)).attempted +
      (reportOf 3 (runFailFast (fun i => decide (i ≠ 1)) 3)).skipped = 3 :=
  ⟨(renderMany_failFast_spec (fun i => decide (i ≠ 1)) 3 (by norm_num)).2.2.2.1 1
      (by norm_num) (by decide) (by decide),
    (renderMany_failFast_spec (fun i => decide (i ≠ 1)) 3 (by norm_num)).2.2.1⟩

/-- Helper: a thrown `Except` error short-circuits the rest of a `do` block. -/
theorem except_throw_bind {ε α β : Type} (e : ε) (f : α → Except ε β) :
    (throw e : Except ε α) >>= f = .error e := rfl

/-- C7: the mandatory `queryOrIcon`/`query`/`icon` and `output`/`path`/`file`
fields cause a parse-time error when missing (blank after coalescing), which
`renderMany` classifies as `INVALID_USAGE`; and at render time every optional
per-item field that is absent takes the batch-level default while a specified
field overrides it, for all thirteen optional fields. -/
theorem manifest_mandatory_and_defaults :
    (∀ (value : RawRecord) (index : ℕ),
      jsTrim (jsCoalesceString (pickFirst value ["queryOrIcon", "query", "icon"])) = "" →
      normalizeManifestItem value index =
        .error ⟨"Manifest item #" ++ toString (index + 1) ++ ": queryOrIcon/query/icon is required."⟩) ∧
    (∀ (value : RawRecord) (index : ℕ),
      jsTrim (jsCoalesceString (pickFirst value ["queryOrIcon", "query", "icon"])) ≠ "" →
      jsTrim (jsCoalesceString (pickFirst value ["output", "path", "file"])) = "" →
      normalizeManifestItem value index =
        .error ⟨"Manifest item #" ++ toString (index + 1) ++ ": output/path/file is required."⟩) ∧
    (∀ e : RenderManifestError,
      (renderManifestErrorResult e : CmdResult RenderManyItem).errorCode = some "INVALID_USAGE") ∧
    (∀ (item : RenderManyItem) (opts : RenderManyOptions),
      (item.size = none → (effectiveRenderOptions item opts).size = opts.size) ∧
      (∀ v, item.size = some v → (effectiveRenderOptions item opts).size = v) ∧
      (item.bg = none → (effectiveRenderOptions item opts).bg = opts.bg) ∧
      (∀ v, item.bg = some v → (effectiveRenderOptions item opts).bg = v) ∧
      (item.fg = none → (effectiveRenderOptions item opts).fg = opts.fg) ∧
      (∀ v, item.fg = some v → (effectiveRenderOptions item opts).fg = some v) ∧
      (item.strokeWidth = none → (effectiveRenderOptions item opts).strokeWidth = opts.strokeWidth) ∧
      (∀ v, item.strokeWidth = some v → (effectiveRenderOptions item opts).strokeWidth = some v) ∧
      (item.matchMode = none → (effectiveRenderOptions item opts).matchMode = opts.matchMode) ∧
      (∀ v, item.matchMode = some v → (effectiveRenderOptions item opts).matchMode = v) ∧
      (item.source = none → (effectiveRenderOptions item opts).source = opts.source) ∧
      (∀ v, item.source = some v → (effectiveRenderOptions item opts).source = v) ∧
      (item.offline = none → (effectiveRenderOptions item opts).offline = opts.offline) ∧
      (∀ v, item.offline = some v → (effectiveRenderOptions item opts).offline = v) ∧
      (item.collections = none → (effectiveRenderOptions item opts).collections = opts.collections) ∧
      (∀ v, item.collections = some v → (effectiveRenderOptions item opts).collections = some v) ∧
      (item.preferPrefixes = none → (effectiveRenderOptions item opts).preferPrefixes = opts.preferPrefixes) ∧
      (∀ v, item.preferPrefixes = some v → (effectiveRenderOptions item opts).preferPrefixes = some v) ∧
      (item.autoSelect = none → (effectiveRenderOptions item opts).autoSelect = opts.autoSelect) ∧
      (∀ v, item.autoSelect = some v → (effectiveRenderOptions item opts).autoSelect = some v) ∧
      (item.minScore = none → (effectiveRenderOptions item opts).minScore = opts.minScore) ∧
      (∀ v, item.minScore = some v → (effectiveRenderOptions item opts).minScore = v) ∧
      (item.force = none → (effectiveRenderOptions item opts).force = opts.force) ∧
      (∀ v, item.force = some v → (effectiveRenderOptions item opts).force = v) ∧
      (item.dryRun = none → (effectiveRenderOptions item opts).dryRun = opts.dryRun) ∧
      (∀ v, item.dryRun = some v → (effectiveRenderOptions item opts).dryRun = v)) := by
  refine ⟨?_, ?_, fun e => rfl, ?_⟩
  · intro value index h
    simp [normalizeManifestItem, h, except_throw_bind]
  · intro value index h1 h2
    simp [normalizeManifestItem, h1, h2, except_throw_bind]
  · intro item opts
    refine ⟨fun h => by simp [effectiveRenderOptions, h],
      fun v h => by simp [effectiveRenderOptions, h],
      fun h => by simp [effectiveRenderOptions, h],
      fun v h => by simp [effectiveRenderOptions, h],
      fun h => by simp [effectiveRenderOptions, h],
      fun v h => by simp [effectiveRenderOptions, h],
      fun h => by simp [effectiveRenderOptions, h],
      fun v h => by simp [effectiveRenderOptions, h],
      fun h => by simp [effectiveRenderOptions, h],
      fun v h => by simp [effectiveRenderOptions, h],
      fun h => by simp [effectiveRenderOptions, h],
      fun v h => by simp [effectiveRenderOptions, h],
      fun h => by simp [effectiveRenderOptions, h],
      fun v h => by simp [effectiveRenderOptions, h],
      fun h => by simp [effectiveRenderOptions, h],
      fun v h => by simp [effectiveRenderOptions, h],
      fun h => by simp [effectiveRenderOptions, h],
      fun v h => by simp [effectiveRenderOptions, h],
      fun h => by simp [effectiveRenderOptions, h],
      fun v h => by simp [effectiveRenderOptions, h],
      fun h => by simp [effectiveRenderOptions, h],
      fun v h => by simp [effectiveRenderOptions, h],
      fun h => by simp [effectiveRenderOptions, h],
      fun v h => by simp [effectiveRenderOptions, h],
      fun h => by simp [effectiveRenderOptions, h],
      fun v h => by simp [effectiveRenderOptions, h]⟩

/-- C7 witness: missing query and missing output each fail at parse time, and
a mixed-specificity item resolves each field to the override when specified
and to the batch default when omitted. -/
theorem manifest_mandatory_and_defaults_witness :
    normalizeManifestItem [("size", RawVal.num 64)] 0 =
      .error ⟨"Manifest item #1: queryOrIcon/query/icon is required."⟩ ∧
    normalizeManifestItem [("query", RawVal.str "bacon")] 1 =
      .error ⟨"Manifest item #2: output/path/file is required."⟩ ∧
    (effectiveRenderOptions itemW optsW).size = 64 ∧
    (effectiveRenderOptions itemW optsW).bg = "transparent" ∧
    (effectiveRenderOptions itemW optsW).offline = true ∧
    (effectiveRenderOptions itemW optsW).source = "auto" :=
  ⟨manifest_mandatory_and_defaults.1 [("size", RawVal.num 64)] 0 (by decide),
    manifest_mandatory_and_defaults.2.1 [("query", RawVal.str "bacon")] 1 (by decide) (by decide),
    (manifest_mandatory_and_defaults.2.2.2 itemW optsW).2.1 64 rfl,
    (manifest_mandatory_and_defaults.2.2.2 itemW optsW).2.2.1 rfl,
    ((manifest_mandatory_and_defaults.2.2.2 itemW optsW).2.2.2.2.2.2.2.2.2.2.2.2.2).1 true rfl,
    ((manifest_mandatory_and_defaults.2.2.2 itemW optsW).2.2.2.2.2.2.2.2.2.2).1 rfl⟩

/-- Helper: the invariant holds initially. -/
theorem poolInv_init (wcount n : ℕ) {α : Type} (f : ℕ → α) :
    PoolInv wcount n f (initPool α) := by
  refine ⟨Nat.zero_le n, fun w _ => rfl, ?_, ?_, ?_, fun i _ => ⟨rfl, rfl⟩, ?_⟩
  · intro w i h
    exact absurd h (by simp [initPool])
  · intro w₁ w₂ i h₁ h₂
    exact absurd h₁ (by simp [initPool])
  · intro i hi
    exact absurd hi (Nat.not_lt_zero i)
  · intro w h
    exact absurd h (by simp [initPool])

/-- Helper: every pool step preserves the invariant. -/
theorem poolInv_step (wcount n : ℕ) {α : Type} (f : ℕ → α) (s t : PoolState α)
    (hstep : PoolStep wcount n f s t) (hinv : PoolInv wcount n f s) :
    PoolInv wcount n f t := by
  cases hstep with
  | pull w s hw hst hc =>
      obtain ⟨hcle, hhi, hblt, hbu, hcl, huncl, hdg⟩ := hinv
      refine ⟨hc, ?_, ?_, ?_, ?_, ?_, ?_⟩ <;> dsimp only
      · intro w' hw'
        have hne : w' ≠ w := by omega
        rw [Function.update_noteq hne]
        exact hhi w' hw'
      · intro w' j h
        by_cases he : w' = w
        · subst he
          rw [Function.update_same] at h
          injection h with h'
          omega
        · rw [Function.update_noteq he] at h
          exact Nat.lt_succ_of_lt (hblt w' j h)
      · intro w₁ w₂ j h₁ h₂
        by_cases he₁ : w₁ = w <;> by_cases he₂ : w₂ = w
        · rw [he₁, he₂]
        · subst he₁
          rw [Function.update_same] at h₁
          rw [Function.update_noteq he₂] at h₂
          injection h₁ with h₁'
          have := hblt w₂ j h₂
          omega
        · subst he₂
          rw [Function.update_same] at h₂
          rw [Function.update_noteq he₁] at h₁
          injection h₂ with h₂'
          have := hblt w₁ j h₁
          omega
        · rw [Function.update_noteq he₁] at h₁
          rw [Function.update_noteq he₂] at h₂
          exact hbu w₁ w₂ j h₁ h₂
      · intro j hj
        rcases Nat.lt_succ_iff_lt_or_eq.mp hj with hlt | heq
        · rcases hcl j hlt with ⟨hr, hwrt, hnb⟩ | ⟨hr, hwrt, w', hbw⟩
          · left
            refine ⟨hr, hwrt, ?_⟩
            intro w''
            by_cases he : w'' = w
            · subst he
              rw [Function.update_same]
              intro hcontra
              injection hcontra with h'
              omega
            · rw [Function.update_noteq he]
              exact hnb w''
          · right
            have hne : w' ≠ w := fun he => by
              subst he
              rw [hst] at hbw
              cases hbw
            refine ⟨hr, hwrt, w', ?_⟩
            rw [Function.update_noteq hne]
            exact hbw
        · subst heq
          right
          obtain ⟨hr, hwrt⟩ := huncl s.cursor le_rfl
          exact ⟨hr, hwrt, w, by rw [Function.update_same]⟩
      · intro j hj
        exact huncl j (by omega)
      · intro w' h
        by_cases he : w' = w
        · subst he
          rw [Function.update_same] at h
          cases h
        · rw [Function.update_noteq he] at h
          have := hdg w' h
          omega
  | finish w i s hw hst =>
      obtain ⟨hcle, hhi, hblt, hbu, hcl, huncl, hdg⟩ := hinv
      have hi_lt : i < s.cursor := hblt w i hst
      refine ⟨hcle, ?_, ?_, ?_, ?_, ?_, ?_⟩ <;> dsimp only
      · intro w' hw'
        by_cases he : w' = w
        · subst he
          rw [Function.update_same]
        · rw [Function.update_noteq he]
          exact hhi w' hw'
      · intro w' j h
        have hne : w' ≠ w := fun he => by
          subst he
          rw [Function.update_same] at h
          cases h
        rw [Function.update_noteq hne] at h
        exact hblt w' j h
      · intro w₁ w₂ j h₁ h₂
        have hne₁ : w₁ ≠ w := fun he => by
          subst he
          rw [Function.update_same] at h₁
          cases h₁
        have hne₂ : w₂ ≠ w := fun he => by
          subst he
          rw [Function.update_same] at h₂
          cases h₂
        rw [Function.update_noteq hne₁] at h₁
        rw [Function.update_noteq hne₂] at h₂
        exact hbu w₁ w₂ j h₁ h₂
      · intro j hj
        by_cases hji : j = i
        · subst hji
          left
          rcases hcl j hi_lt with ⟨_, _, hnb⟩ | ⟨_, hw0, _⟩
          · exact absurd hst (hnb w)
          · refine ⟨by rw [Function.update_same], by rw [Function.update_same, hw0], ?_⟩
            intro w''
            by_cases he : w'' = w
            · subst he
              rw [Function.update_same]
              simp
            · rw [Function.update_noteq he]
              intro hcontra
              exact he (hbu w'' w j hcontra hst)
        · rcases hcl j hj with ⟨hr, hwrt, hnb⟩ | ⟨hr, hwrt, w', hbw⟩
          · left
            refine ⟨by rw [Function.update_noteq hji]; exact hr,
              by rw [Function.update_noteq hji]; exact hwrt, ?_⟩
            intro w''
            by_cases he : w'' = w
            · subst he
              rw [Function.update_same]
              simp
            · rw [Function.update_noteq he]
              exact hnb w''
          · right
            have hne : w' ≠ w := fun he => by
              rw [he, hst] at hbw
              injection hbw with h'
              exact hji h'.symm
            refine ⟨by rw [Function.update_noteq hji]; exact hr,
              by rw [Function.update_noteq hji]; exact hwrt, w', ?_⟩
            rw [Function.update_noteq hne]
            exact hbw
      · intro j hj
        have hji : j ≠ i := by omega
        obtain ⟨hr, hwrt⟩ := huncl j hj
        exact ⟨by rw [Function.update_noteq hji]; exact hr,
          by rw [Function.update_noteq hji]; exact hwrt⟩
      · intro w' h
        have hne : w' ≠ w := fun he => by
          subst he
          rw [Function.update_same] at h
          cases h
        rw [Function.update_noteq hne] at h
        exact hdg w' h
  | retire w s hw hst hc =>
      obtain ⟨hcle, hhi, hblt, hbu, hcl, huncl, hdg⟩ := hinv
      refine ⟨hcle, ?_, ?_, ?_, ?_, huncl, ?_⟩ <;> dsimp only
      · intro w' hw'
        have hne : w' ≠ w := by omega
        rw [Function.update_noteq hne]
        exact hhi w' hw'
      · intro w' j h
        have hne : w' ≠ w := fun he => by
          subst he
          rw [Function.update_same] at h
          cases h
        rw [Function.update_noteq hne] at h
        exact hblt w' j h
      · intro w₁ w₂ j h₁ h₂
        have hne₁ : w₁ ≠ w := fun he => by
          subst he
          rw [Function.update_same] at h₁
          cases h₁
        have hne₂ : w₂ ≠ w := fun he => by
          subst he
          rw [Function.update_same] at h₂
          cases h₂
        rw [Function.update_noteq hne₁] at h₁
        rw [Function.update_noteq hne₂] at h₂
        exact hbu w₁ w₂ j h₁ h₂
      · intro j hj
        rcases hcl j hj with ⟨hr, hwrt, hnb⟩ | ⟨hr, hwrt, w', hbw⟩
        · left
          refine ⟨hr, hwrt, ?_⟩
          intro w''
          by_cases he : w'' = w
          · subst he
            rw [Function.update_same]
            simp
          · rw [Function.update_noteq he]
            exact hnb w''
        · right
          have hne : w' ≠ w := fun he => by
            rw [he, hst] at hbw
            cases hbw
          refine ⟨hr, hwrt, w', ?_⟩
          rw [Function.update_noteq hne]
          exact hbw
      · intro w' h
        by_cases he : w' = w
        · exact hc
        · rw [Function.update_noteq he] at h
          exact hdg w' h

/-- Helper: every reachable pool state satisfies the invariant. -/
theorem poolInv_reachable (wcount n : ℕ) {α : Type} (f : ℕ → α) (s : PoolState α)
    (h : PoolReachable wcount n f (initPool α) s) : PoolInv wcount n f s := by
  induction h with
  | refl => exact poolInv_init wcount n f
  | tail hsteps hstep ih => exact poolInv_step wcount n f _ _ hstep ih

/-- Helper: any terminal reachable state of a pool with at least one worker
has consumed the whole cursor range and written slot `i` with `f i` exactly
once for every `i < n`, and nothing else. -/
theorem pool_terminal_spec {α : Type} (wcount n : ℕ) (f : ℕ → α) (hw : 1 ≤ wcount)
    (s : PoolState α) (hreach : PoolReachable wcount n f (initPool α) s)
    (hterm : PoolTerminal wcount s) :
    s.cursor = n ∧
    (∀ i, i < n → s.results i = some (f i) ∧ s.writes i = 1) ∧
    (∀ i, n ≤ i → s.results i = none ∧ s.writes i = 0) := by
  obtain ⟨hcle, hhi, hblt, hbu, hcl, huncl, hdg⟩ := poolInv_reachable wcount n f s hreach
  have h0 : s.workers 0 = .done := hterm 0 hw
  have hcur : s.cursor = n := le_antisymm hcle (hdg 0 h0)
  have hnobusy : ∀ w' i, s.workers w' ≠ .busy i := by
    intro w' i h
    by_cases hlt : w' < wcount
    · rw [hterm w' hlt] at h
      cases h
    · rw [hhi w' (le_of_not_lt hlt)] at h
      cases h
  refine ⟨hcur, ?_, ?_⟩
  · intro i hi
    rcases hcl i (by omega) with ⟨hr, hwrt, _⟩ | ⟨_, _, w', hbw⟩
    · exact ⟨hr, hwrt⟩
    · exact absurd hbw (hnobusy w' i)
  · intro i hi
    exact huncl i (by omega)

end Icns
namespace Icns

/-- C5: for `1 ≤ k ≤ n`, any terminal state reachable under arbitrary
scheduling of `withConcurrency`'s `min(max(1, k), n)` workers has result slot
`i` holding the outcome of input item `i` for every `i < n`, each input index
processed exactly once (ghost write counter `1`), and no slot outside the
input range touched — regardless of completion order and even when every
worker outcome is a failure value (the outcome type is arbitrary). -/
theorem withConcurrency_positional {α : Type} (n k : ℕ) (f : ℕ → α)
    (hk1 : 1 ≤ k) (hkn : k ≤ n) (s : PoolState α)
    (hreach : PoolReachable (clampWorkers k n) n f (initPool α) s)
    (hterm : PoolTerminal (clampWorkers k n) s) :
    s.cursor = n ∧
    (∀ i, i < n → s.results i = some (f i) ∧ s.writes i = 1) ∧
    (∀ i, n ≤ i → s.results i = none ∧ s.writes i = 0) := by
  have hw : 1 ≤ clampWorkers k n :=
    le_min (le_max_left 1 k) (le_trans hk1 hkn)
  exact pool_terminal_spec (clampWorkers k n) n f hw s hreach hterm

/-- C5 witness: a concrete one-item, one-worker run pulled, finished and
retired to a terminal state; the theorem yields the filled slot `0` and the
untouched slot `5`. -/
theorem withConcurrency_positional_witness :
    poolW3.cursor = 1 ∧ poolW3.results 0 = some 0 ∧ poolW3.writes 0 = 1 ∧
    poolW3.results 5 = none ∧ poolW3.writes 5 = 0 := by
  have hclamp : clampWorkers 1 1 = 1 := by decide
  have step1 : PoolStep (clampWorkers 1 1) 1 (fun i => i) (initPool ℕ) poolW1 :=
    PoolStep.pull 0 (initPool ℕ) (by rw [hclamp]; omega) rfl (by decide)
  have step2 : PoolStep (clampWorkers 1 1) 1 (fun i => i) poolW1 poolW2 :=
    PoolStep.finish 0 0 poolW1 (by rw [hclamp]; omega) (by simp [poolW1, Function.update])
  have step3 : PoolStep (clampWorkers 1 1) 1 (fun i => i) poolW2 poolW3 :=
    PoolStep.retire 0 poolW2 (by rw [hclamp]; omega) (by simp [poolW2, Function.update]) (by decide)
  have hreach : PoolReachable (clampWorkers 1 1) 1 (fun i => i) (initPool ℕ) poolW3 :=
    Relation.ReflTransGen.head step1 (Relation.ReflTransGen.head step2
      (Relation.ReflTransGen.single step3))
  have hterm : PoolTerminal (clampWorkers 1 1) poolW3 := by
    intro w hw
    rw [hclamp] at hw
    have hw0 : w = 0 := by omega
    subst hw0
    simp [poolW3, poolW2, Function.update]
  have h := withConcurrency_positional 1 1 (fun i => i) le_rfl le_rfl poolW3 hreach hterm
  exact ⟨h.1, (h.2.1 0 one_pos).1, (h.2.1 0 one_pos).2,
    (h.2.2 5 (by norm_num)).1, (h.2.2 5 (by norm_num)).2⟩


end Icns
